import Mathlib

/-!
Shallow embedding of the rscp core (package rscp, the venv-based revision of
the source): the sink and source protocol state machines, framing and parsing
primitives, POSIX/internal mode translation, and the error emitter.

Modelling conventions:
* Go strings and byte streams are `List Nat` (byte values 0..255); `ascii`
  builds byte-list constants from ASCII literals.
* The peer byte stream `in` is an `InStream`: a finite list of available
  bytes followed by an end marker, either clean EOF or an I/O error.
* The writer `out` is an in-memory buffer with an optional remaining-capacity
  bound `outCap`; exceeding it makes the write fail (models a broken pipe or
  full disk on the writer side).
* The filesystem is a flat association list from path to node.  Regular files
  carry an optional write capacity (writes past it fail, modelling a full
  disk) and an optional read capacity (reads past it fail, modelling an I/O
  error), so that the partial-copy recovery paths of `sinkFile` and `send`
  are reachable.  chmod/utimes/mkdir/sync are modelled as always succeeding;
  the Go code paths collecting their errors are kept but their error branches
  are dead in the model.  Mutating filesystem calls are also recorded in an
  effect log so that theorems can speak about which effects a call performed.
* `io.Copy` is modelled at byte granularity in bulk form: a failing write
  consumes the one byte that was read for it but not written.
* Recursion between `sink`, `sinkLoop` and `sinkDir` (and `send`/`sendDir`)
  is made total with a fuel parameter; running out of fuel yields the
  distinguished `fuelErr`, which no theorem's scenario reaches.
* The rate limiter and the CLI shell are outside every claim and are not
  embedded.
-/

namespace Rscp

/-- Byte strings: Go strings and byte slices as lists of byte values. -/
abbrev Str := List Nat

/-- Byte-list constant from an ASCII string literal. -/
def ascii (s : String) : Str := s.data.map Char.toNat

/-- Go error values as used by rscp: `FatalError` (a string type), plain soft
errors (`errors.New`, os errors), and `AccError` aggregating a list. -/
inductive GoErr where
  | fatal (msg : Str)
  | soft (msg : Str)
  | acc (errs : List GoErr)

/-- Embeds `isFatal`: a runtime type test for `FatalError`; an `AccError` is
not fatal even when it contains fatal members. -/
def isFatal : Option GoErr → Bool
  | some (.fatal _) => true
  | _ => false

/-- Space-separated join, as `fmt.Sprintln` does for its operands. -/
def joinSpace : List Str → Str
  | [] => []
  | [s] => s
  | s :: t => s ++ 32 :: joinSpace t

mutual
/-- Embeds the `Error()` methods: `FatalError` and plain errors render their
message; `AccError.Error` is `fmt.Sprintln` of the members, i.e. the messages
separated by single spaces with a trailing newline. -/
def errMsg : GoErr → Str
  | .fatal m => m
  | .soft m => m
  | .acc es => joinSpace (errMsgList es) ++ [10]

def errMsgList : List GoErr → List Str
  | [] => []
  | e :: t => errMsg e :: errMsgList t
end

/-- Embeds `FileTimes` (two `syscall.Timeval`s, seconds and microseconds). -/
structure FileTimes where
  mtimeSec : Int
  mtimeUsec : Int
  atimeSec : Int
  atimeUsec : Int
deriving Repr, DecidableEq

/-- What the reader yields once its buffered bytes are exhausted. -/
inductive StreamEnd where
  | eof
  | ioErr (msg : Str)
deriving Repr, DecidableEq

/-- The inbound byte stream `in`. -/
structure InStream where
  bytes : Str
  close : StreamEnd
deriving Repr, DecidableEq

/-- Filesystem nodes.  A regular file carries permission bits (`os.FileMode`
value), content, optional write and read capacities (see module comment) and
mtime/atime seconds; `special` stands for a non-regular, non-directory node
(device, fifo, ...). -/
inductive FsNode where
  | file (perm : Nat) (content : Str) (wcap : Option Nat) (rcap : Option Nat)
      (mtime : Int) (atime : Int)
  | dir (perm : Nat) (mtime : Int) (atime : Int)
  | special (perm : Nat)
deriving Repr, DecidableEq

/-- Log entries for filesystem effects performed by the engine. -/
inductive Effect where
  | openE (p : Str) (created : Bool)
  | mkdirE (p : Str) (perm : Nat)
  | chmodE (p : Str) (perm : Nat)
  | truncE (p : Str) (size : Int)
  | syncE (p : Str)
  | utimesE (p : Str) (t : FileTimes)
deriving Repr, DecidableEq

/-- The program state threaded through every operation: filesystem, the two
byte streams, and the effect log. -/
structure World where
  fs : List (Str × FsNode)
  input : InStream
  output : Str
  outCap : Option Nat
  log : List Effect
deriving Repr, DecidableEq

/-- The command-line flags the core consults. -/
structure Opts where
  iamRecursive : Bool
  targetDir : Bool
  preserveAttrs : Bool
deriving Repr, DecidableEq

/-- Embeds `MaxErrLen`. -/
def MaxErrLen : Nat := 1024

def S_IWUSR : Nat := 0o200
def S_IRWXU : Nat := 0o700
def S_ISUID : Nat := 0o4000
def S_ISGID : Nat := 0o2000

/-- `os.ModePerm`. -/
def ModePerm : Nat := 0o777
/-- `os.ModeSetuid` (bit 23 of `os.FileMode`). -/
def ModeSetuid : Nat := 2 ^ 23
/-- `os.ModeSetgid` (bit 22 of `os.FileMode`). -/
def ModeSetgid : Nat := 2 ^ 22

/-- Embeds `protocolErr`. -/
def protocolErr : GoErr := .fatal (ascii "protocol error")

/-- Artificial result of fuel exhaustion (a modelling device only). -/
def fuelErr : GoErr := .fatal (ascii "fuel exhausted")

/-- Embeds `toPosixPerm`: keep the low 9 permission bits, translate the
setuid/setgid `FileMode` bits to their POSIX positions. -/
def toPosixPerm (perm : Nat) : Nat :=
  let pp := perm &&& ModePerm
  let pp := if perm &&& ModeSetuid ≠ 0 then pp ||| S_ISUID else pp
  if perm &&& ModeSetgid ≠ 0 then pp ||| S_ISGID else pp

/-- Embeds `toStdPerm`: the argument is a Go `int`; the conversion
`os.FileMode(posixPerm)` truncates to 32 bits (two's complement), then the
low 9 bits are kept and POSIX setuid/setgid map to the `FileMode` bits. -/
def toStdPerm (posixPerm : Int) : Nat :=
  let u := (posixPerm % (2 ^ 32 : Int)).toNat
  let perm := u &&& ModePerm
  let perm := if u &&& S_ISUID ≠ 0 then perm ||| ModeSetuid else perm
  if u &&& S_ISGID ≠ 0 then perm ||| ModeSetgid else perm

/-- Writing to `out` (`fmt.Fprint`/`fmt.Fprintf`/payload writes): appends to
the output buffer; with a capacity bound, a write that does not fit appends
the part that fits and fails. -/
def writeOut (bs : Str) (w : World) : Option Str × World :=
  match w.outCap with
  | none => (none, { w with output := w.output ++ bs })
  | some c =>
    if bs.length ≤ c then
      (none, { w with output := w.output ++ bs, outCap := some (c - bs.length) })
    else
      (some (ascii "write error"), { w with output := w.output ++ bs.take c, outCap := some 0 })

/-- Reading one byte from `in`: `.ok none` is `io.EOF`, `.error` any other
read error. -/
def readByte (w : World) : Except Str (Option Nat) × World :=
  match w.input.bytes with
  | b :: t => (.ok (some b), { w with input := ⟨t, w.input.close⟩ })
  | [] =>
    match w.input.close with
    | .eof => (.ok none, w)
    | .ioErr m => (.error m, w)

/-- Message carried by the read error a caller of `Read` sees at stream end
(`io.EOF.Error()` is "EOF"). -/
def endErrMsg : StreamEnd → Str
  | .eof => ascii "EOF"
  | .ioErr m => m

/-- Splits off the first newline-terminated line; reaching the stream end
before a newline is a read error (as in `readLine`, where any `Read` error,
EOF included, aborts). -/
def splitLine : Str → StreamEnd → Except Str (Str × Str)
  | [], e => .error (endErrMsg e)
  | b :: t, e =>
    if b = 10 then .ok ([], t)
    else
      match splitLine t e with
      | .error m => .error m
      | .ok (l, r) => .ok (b :: l, r)

/-- Embeds `readLine`: bytes up to and excluding the first `\n`. -/
def readLine (w : World) : Except Str Str × World :=
  match splitLine w.input.bytes w.input.close with
  | .error m => (.error m, { w with input := ⟨[], w.input.close⟩ })
  | .ok (l, r) => (.ok l, { w with input := ⟨r, w.input.close⟩ })

/-- Embeds `ack`: one status byte; `0` is success, `1`/`2` carry a line as a
soft/fatal error, anything else is a fatal protocol error. -/
def ack (w : World) : Option GoErr × World :=
  match readByte w with
  | (.error m, w) => (some (.fatal m), w)
  | (.ok none, w) => (some (.fatal (ascii "EOF")), w)
  | (.ok (some k), w) =>
    if k = 0 then (none, w)
    else
      match readLine w with
      | (.error m, w) => (some (.fatal m), w)
      | (.ok l, w) =>
        if k = 1 then (some (.soft l), w)
        else if k = 2 then (some (.fatal l), w)
        else (some protocolErr, w)

/-- Newline flattening of `sendError`: `strings.Replace(msg, "\n", "; ", -1)`. -/
def replaceNl : Str → Str
  | [] => []
  | b :: t => if b = 10 then 59 :: 32 :: replaceNl t else b :: replaceNl t

/-- The body `sendError` puts after the `\x01` prefix: the flattened message,
truncated to `MaxErrLen - 6` bytes plus `"..."` when longer than
`MaxErrLen - 3`. -/
def sendErrorBody (msg : Str) : Str :=
  let line := replaceNl msg
  if MaxErrLen - 3 < line.length then line.take (MaxErrLen - 6) ++ ascii "..." else line

/-- The full line `sendError` emits: `\x01` + body + `\n`. -/
def sendErrorLine (msg : Str) : Str := 1 :: (sendErrorBody msg ++ [10])

/-- Embeds `sendError` (the venv revision returns the write failure). -/
def sendError (e : GoErr) (w : World) : Option Str × World :=
  writeOut (sendErrorLine (errMsg e)) w

/-- Embeds `teeError`: send the error to the peer, then return it; a failure
of the send itself is returned as a fatal error instead. -/
def teeError (e : GoErr) (w : World) : Option GoErr × World :=
  match sendError e w with
  | (some m, w) => (some (.fatal m), w)
  | (none, w) => (some e, w)

/-- Whitespace bytes as skipped by the `fmt` scanner. -/
def isWsB (b : Nat) : Bool := b = 32 || b = 9 || b = 10 || b = 13 || b = 11 || b = 12

def isOctB (b : Nat) : Bool := 48 ≤ b && b ≤ 55

def isDecB (b : Nat) : Bool := 48 ≤ b && b ≤ 57

/-- Numeric value of a digit run in the given base. -/
def digitsVal (base : Nat) (ds : Str) : Nat := ds.foldl (fun a b => a * base + (b - 48)) 0

/-- One integer conversion of `fmt.Sscanf` (`%o` or `%d` depending on the
digit predicate): skip whitespace, optional minus sign, at least one digit. -/
def scanIntBase (base : Nat) (digitP : Nat → Bool) (s : Str) : Option (Int × Str) :=
  match s.dropWhile isWsB with
  | 45 :: t =>
    let ds := t.takeWhile digitP
    if ds = [] then none else some (-(digitsVal base ds : Int), t.drop ds.length)
  | s' =>
    let ds := s'.takeWhile digitP
    if ds = [] then none else some ((digitsVal base ds : Int), s'.drop ds.length)

/-- The `%s` conversion of `fmt.Sscanf`: skip whitespace, then a maximal
nonempty run of non-whitespace bytes. -/
def scanTok (s : Str) : Option (Str × Str) :=
  let s' := s.dropWhile isWsB
  let tk := s'.takeWhile (fun b => !isWsB b)
  if tk = [] then none else some (tk, s'.drop tk.length)

/-- The `fmt.Sscanf(line, "%o %d %s", ...)` call of `parseSubj`.  A failed or
short scan is collapsed into `none` (in Go a short scan always carries a
non-nil error, so the separate `n != 3` branch is unreachable). -/
def scanSubj (line : Str) : Option (Int × Int × Str) :=
  match scanIntBase 8 isOctB line with
  | none => none
  | some (pperm, r1) =>
    match scanIntBase 10 isDecB r1 with
    | none => none
    | some (size, r2) =>
      match scanTok r2 with
      | none => none
      | some (nm, _) => some (pperm, size, nm)

/-- The `fmt.Sscanf(line, "%d %d %d %d", ...)` call of the `T` frame handler,
in source order: mtime.sec, mtime.usec, atime.sec, atime.usec.  As in
`scanSubj`, failed and short scans are collapsed into `none`. -/
def scanTimes (line : Str) : Option FileTimes :=
  match scanIntBase 10 isDecB line with
  | none => none
  | some (ms, r1) =>
    match scanIntBase 10 isDecB r1 with
    | none => none
    | some (mu, r2) =>
      match scanIntBase 10 isDecB r2 with
      | none => none
      | some (as', r3) =>
        match scanIntBase 10 isDecB r3 with
        | none => none
        | some (au, _) => some ⟨ms, mu, as', au⟩

/-- Embeds `parseSubj`: scan `%o %d %s`, translate the mode, and reject a
name equal to `..` or containing `/` with a fatal error. -/
def parseSubj (line : Str) : Except GoErr (Nat × Int × Str) :=
  match scanSubj line with
  | none => .error (.fatal (ascii "input does not match format"))
  | some (pperm, size, nm) =>
    if nm = ascii ".." || nm.contains 47 then .error (.fatal (nm ++ ascii ": invalid name"))
    else .ok (toStdPerm pperm, size, nm)

/-- Decimal digits of a natural number. -/
def decDigits (n : Nat) : Str :=
  if h : n < 10 then [48 + n]
  else decDigits (n / 10) ++ [48 + n % 10]
decreasing_by exact Nat.div_lt_self (by omega) (by omega)

/-- Octal digits of a natural number. -/
def octDigits (n : Nat) : Str :=
  if h : n < 8 then [48 + n]
  else octDigits (n / 8) ++ [48 + n % 8]
decreasing_by exact Nat.div_lt_self (by omega) (by omega)

/-- Go `%04o`: octal, zero-padded to at least four digits. -/
def fmtOct4 (n : Nat) : Str :=
  let ds := octDigits n
  List.replicate (4 - ds.length) 48 ++ ds

/-- Go `%d` on an integer. -/
def fmtInt (i : Int) : Str :=
  if i < 0 then 45 :: decDigits (-i).toNat else decDigits i.toNat

/-- Go `%d` on a natural. -/
def fmtNat (n : Nat) : Str := decDigits n

/-- `path.Join(parent, name)` for a nonempty parent and a clean,
slash-free name (the only way the engine uses it). -/
def pjoin (p nm : Str) : Str := p ++ 47 :: nm

/-- The base name of a path, as `os.FileInfo.Name()` reports it. -/
def baseName (p : Str) : Str := (p.reverse.takeWhile (fun b => b ≠ 47)).reverse

def fsGet : List (Str × FsNode) → Str → Option FsNode
  | [], _ => none
  | (q, n) :: t, p => if q = p then some n else fsGet t p

def fsSet : List (Str × FsNode) → Str → FsNode → List (Str × FsNode)
  | [], p, n => [(p, n)]
  | (q, m) :: t, p, n => if q = p then (p, n) :: t else (q, m) :: fsSet t p n

def isDirNode : FsNode → Bool
  | .dir _ _ _ => true
  | _ => false

/-- `st.Mode().IsRegular()`. -/
def isRegNode : FsNode → Bool
  | .file _ _ _ _ _ _ => true
  | _ => false

/-- `os.Chmod` / `File.Chmod`, modelled as always succeeding; logged. -/
def fsChmod (p : Str) (perm : Nat) (w : World) : World :=
  { w with
    fs :=
      match fsGet w.fs p with
      | some (.file _ c wc rc mt av) => fsSet w.fs p (.file perm c wc rc mt av)
      | some (.dir _ mt av) => fsSet w.fs p (.dir perm mt av)
      | some (.special _) => fsSet w.fs p (.special perm)
      | none => w.fs,
    log := w.log ++ [.chmodE p perm] }

/-- `syscall.Utimes`, modelled as always succeeding; logged. -/
def fsUtimes (p : Str) (t : FileTimes) (w : World) : World :=
  { w with
    fs :=
      match fsGet w.fs p with
      | some (.file pm c wc rc _ _) => fsSet w.fs p (.file pm c wc rc t.mtimeSec t.atimeSec)
      | some (.dir pm _ _) => fsSet w.fs p (.dir pm t.mtimeSec t.atimeSec)
      | some (.special _) => w.fs
      | none => w.fs,
    log := w.log ++ [.utimesE p t] }

/-- Content after `File.Truncate(size)`: cut, or extend with zero bytes. -/
def truncTo (size : Nat) (c : Str) : Str := c.take size ++ List.replicate (size - c.length) 0

/-- `File.Truncate`: fails only on a negative size (EINVAL); logged. -/
def fsTruncate (p : Str) (size : Int) (w : World) : Option Str × World :=
  if size < 0 then (some (ascii "truncate: invalid argument"), w)
  else
    match fsGet w.fs p with
    | some (.file pm c wc rc mt av) =>
      (none,
       { w with fs := fsSet w.fs p (.file pm (truncTo size.toNat c) wc rc mt av),
                log := w.log ++ [.truncE p size] })
    | some _ => (none, { w with log := w.log ++ [.truncE p size] })
    | none => (none, w)

/-- `File.Sync`, modelled as always succeeding; logged. -/
def fsSync (p : Str) (w : World) : World := { w with log := w.log ++ [.syncE p] }

/-- `os.OpenFile(name, os.O_WRONLY|os.O_CREATE, perm)`: opening a directory
write-only fails; a missing node is created empty with the given mode.
Returns the opened node as seen by the following `f.Stat()` and whether it
was created. -/
def openWronlyCreate (p : Str) (perm : Nat) (w : World) : Except GoErr (FsNode × Bool) × World :=
  match fsGet w.fs p with
  | some (.dir _ _ _) => (.error (.soft (ascii "open " ++ p ++ ascii ": is a directory")), w)
  | some n => (.ok (n, false), { w with log := w.log ++ [.openE p false] })
  | none =>
    let n := FsNode.file perm [] none none 0 0
    (.ok (n, true), { w with fs := fsSet w.fs p n, log := w.log ++ [.openE p true] })

/-- Names of the direct children of `dir` present in the filesystem, in
filesystem order (`Readdir`; batching does not change the visited set). -/
def childNameOf (dir p : Str) : Option Str :=
  if p.take (dir.length + 1) = dir ++ [47] then
    let nm := p.drop (dir.length + 1)
    if nm ≠ [] && !nm.contains 47 then some nm else none
  else none

def fsChildren (fs : List (Str × FsNode)) (dir : Str) : List Str :=
  fs.filterMap (fun e => childNameOf dir e.1)

/-- Error carried by the first read past the buffered bytes, as seen through
`io.Copy` (a clean EOF ends the copy without error). -/
def endErrOpt : StreamEnd → Option Str
  | .eof => none
  | .ioErr m => some m

/-- File content after writing `prefixBytes` from offset zero. -/
def overwrite (old prefixBytes : Str) : Str := prefixBytes ++ old.drop prefixBytes.length

/-- Write-failure message of a file write (full disk). -/
def noSpaceMsg (p : Str) : Str := ascii "write " ++ p ++ ascii ": no space left on device"

/-- No-cap / cap-not-reached completion of `copyInToFile`: `k` bytes flow,
and the limit being unreached surfaces the stream-end error, if any. -/
def copyInFin (p : Str) (n k : Nat) (perm : Nat) (content : Str)
    (wcap rcap : Option Nat) (mt av : Int) (w : World) : Nat × Option Str × World :=
  (k, (if k = n then none else endErrOpt w.input.close),
   { w with
     fs := fsSet w.fs p (.file perm (overwrite content (w.input.bytes.take k)) wcap rcap mt av),
     input := ⟨w.input.bytes.drop k, w.input.close⟩ })

/-- Embeds `io.Copy(f, io.LimitReader(in, size))` with `f` open at path `p`,
at byte granularity: up to `size` bytes flow from the stream into the file at
offset zero; a full disk (write capacity `c` smaller than the flow) fails the
copy after `c` written bytes, consuming the one extra byte that was read for
the failed write; running out of stream before the limit is clean (EOF) or a
read error according to the stream end. -/
def copyInToFile (p : Str) (size : Int) (w : World) : Nat × Option Str × World :=
  let n := size.toNat
  let k := min n w.input.bytes.length
  match fsGet w.fs p with
  | some (.file perm content wcap rcap mt av) =>
    match wcap with
    | some c =>
      if c < k then
        (c, some (noSpaceMsg p),
         { w with
           fs := fsSet w.fs p (.file perm (overwrite content (w.input.bytes.take c)) wcap rcap mt av),
           input := ⟨w.input.bytes.drop (c + 1), w.input.close⟩ })
      else copyInFin p n k perm content wcap rcap mt av w
    | none => copyInFin p n k perm content none rcap mt av w
  | some (.special _) =>
    (k, (if k = n then none else endErrOpt w.input.close),
     { w with input := ⟨w.input.bytes.drop k, w.input.close⟩ })
  | _ => (0, some (ascii "bad file descriptor"), w)

/-- Embeds `io.Copy(ioutil.Discard, io.LimitReader(in, m))`: discard up to
`m` bytes; clean EOF before the limit is not an error. -/
def drainIn (m : Nat) (w : World) : Nat × Option Str × World :=
  let k := min m w.input.bytes.length
  (k, (if k = m then none else endErrOpt w.input.close),
   { w with input := ⟨w.input.bytes.drop k, w.input.close⟩ })

/-- Embeds `prepareDir`: an existing directory is kept (chmodded under
`-p`); an existing non-directory is a soft error; a missing one is created
with `perm | 0700` and `resetPerm` is reported. -/
def prepareDir (opts : Opts) (name : Str) (perm : Nat) (w : World) : Except GoErr Bool × World :=
  match fsGet w.fs name with
  | some (.dir _ _ _) =>
    if opts.preserveAttrs then (.ok false, fsChmod name perm w) else (.ok false, w)
  | some _ => (.error (.soft (name ++ ascii ": is not a directory")), w)
  | none =>
    (.ok true,
     { w with fs := fsSet w.fs name (.dir (perm ||| S_IRWXU) 0 0),
              log := w.log ++ [.mkdirE name (perm ||| S_IRWXU)] })

/-- Tail of `sinkFile` after the payload copy: truncate when newly created or
regular, sync, chmod under `-p` or on creation, apply pending times, read the
peer ack, then report pending errors (or a success byte) and combine results
exactly as the source does. -/
def sinkFileFin (opts : Opts) (ex : Bool) (name : Str) (perm : Nat) (size : Int)
    (times : Option FileTimes) (pend0 : List GoErr) (st : FsNode) (w : World) :
    Option GoErr × World :=
  let (pend1, w) :=
    if !ex || isRegNode st then
      match fsTruncate name size w with
      | (some m, w) => (pend0 ++ [GoErr.soft m], w)
      | (none, w) => (pend0, w)
    else (pend0, w)
  let w := fsSync name w
  let w := if opts.preserveAttrs || !ex then fsChmod name perm w else w
  let w := match times with | some t => fsUtimes name t w | none => w
  let (ackErr, w) := ack w
  if isFatal ackErr then (ackErr, w)
  else
    match pend1 with
    | [] =>
      match writeOut [0] w with
      | (some m, w) => (some (.fatal m), w)
      | (none, w) =>
        match ackErr with
        | some ae => (some (.acc [ae]), w)
        | none => (none, w)
    | pend =>
      let sentErr := GoErr.acc pend
      match sendError sentErr w with
      | (some m, w) => (some (.fatal m), w)
      | (none, w) =>
        match ackErr with
        | some ae => (some (.acc (pend ++ [ae])), w)
        | none => (some sentErr, w)

/-- Embeds `sinkFile`: parse the subject, land under an existing directory
target, open/create owner-writable, signal readiness, copy the declared
payload with drain-on-failure recovery, then finish via `sinkFileFin`. -/
def sinkFile (opts : Opts) (name0 line : Str) (times : Option FileTimes) (w : World) :
    Option GoErr × World :=
  match parseSubj line with
  | .error e => teeError (.fatal (errMsg e)) w
  | .ok (perm, size, subj) =>
    let ex := (fsGet w.fs name0).isSome
    let name :=
      match fsGet w.fs name0 with
      | some n => if isDirNode n then pjoin name0 subj else name0
      | none => name0
    match openWronlyCreate name (perm ||| S_IWUSR) w with
    | (.error e, w) => teeError e w
    | (.ok (st, _created), w) =>
      match writeOut [0] w with
      | (some m, w) => (some (.fatal m), w)
      | (none, w) =>
        let (wr, cerr, w) := copyInToFile name size w
        match cerr with
        | some cmsg =>
          let (_, derr, w) := drainIn (size - (wr : Int)).toNat w
          match derr with
          | some m => teeError (.fatal m) w
          | none => sinkFileFin opts ex name perm size times [GoErr.soft cmsg] st w
        | none => sinkFileFin opts ex name perm size times [] st w

mutual

/-- Embeds `sink`: the `-d` pre-check, the ready byte, then the dispatch
loop. -/
def sink (fuel : Nat) (opts : Opts) (path : Str) (recur : Bool) (w : World) :
    Option GoErr × World :=
  match fuel with
  | 0 => (some fuelErr, w)
  | fuel + 1 =>
    if opts.targetDir then
      match fsGet w.fs path with
      | none => teeError (.fatal (ascii "stat " ++ path ++ ascii ": no such file or directory")) w
      | some n =>
        if isDirNode n then sinkStart fuel opts path recur w
        else teeError (.fatal (path ++ ascii ": is not a directory")) w
    else sinkStart fuel opts path recur w

/-- The ready `\x00` and entry into the dispatch loop with empty error
accumulator and no pending times. -/
def sinkStart (fuel : Nat) (opts : Opts) (path : Str) (recur : Bool) (w : World) :
    Option GoErr × World :=
  match fuel with
  | 0 => (some fuelErr, w)
  | fuel + 1 =>
    match writeOut [0] w with
    | (some m, w) => (some (.fatal m), w)
    | (none, w) => sinkLoop fuel opts path recur true [] none w

/-- Embeds the dispatch loop of `sink`: one prefix byte plus one line per
iteration; EOF on the prefix read ends the loop.  Note that the `E` case, as
written in the source, emits the ack and then falls through to the next
iteration of the same loop: there is no return. -/
def sinkLoop (fuel : Nat) (opts : Opts) (path : Str) (recur first : Bool)
    (errs : List GoErr) (times : Option FileTimes) (w : World) : Option GoErr × World :=
  match fuel with
  | 0 => (some fuelErr, w)
  | fuel + 1 =>
    match readByte w with
    | (.error m, w) => (some (.fatal m), w)
    | (.ok none, w) => (if errs.isEmpty then none else some (.acc errs), w)
    | (.ok (some pb), w) =>
      match readLine w with
      | (.error m, w) => (some (.fatal m), w)
      | (.ok line, w) =>
        if pb = 1 then
          sinkLoop fuel opts path recur false (errs ++ [.soft line]) times w
        else if pb = 2 then
          (some (.fatal line), w)
        else if pb = 69 then
          if !recur then teeError protocolErr w
          else
            match writeOut [0] w with
            | (some m, w) => (some (.fatal m), w)
            | (none, w) => sinkLoop fuel opts path recur false errs times w
        else if pb = 84 then
          match scanTimes line with
          | none => teeError (.fatal (ascii "input does not match format")) w
          | some t =>
            match writeOut [0] w with
            | (some m, w) => (some (.fatal m), w)
            | (none, w) => sinkLoop fuel opts path recur false errs (some t) w
        else if pb = 68 then
          match sinkDir fuel opts path line times w with
          | (r, w) =>
            if isFatal r then (r, w)
            else
              sinkLoop fuel opts path recur false
                (errs ++ (match r with | some e => [e] | none => [])) none w
        else if pb = 67 then
          match sinkFile opts path line times w with
          | (r, w) =>
            if isFatal r then (r, w)
            else
              sinkLoop fuel opts path recur false
                (errs ++ (match r with | some e => [e] | none => [])) none w
        else
          teeError (if first then .fatal (pb :: line) else protocolErr) w

/-- Embeds `sinkDir`: require `-r`, parse the subject, prepare the directory,
recurse with `recur = true`, then apply pending times and the final mode. -/
def sinkDir (fuel : Nat) (opts : Opts) (parent line : Str) (times : Option FileTimes)
    (w : World) : Option GoErr × World :=
  match fuel with
  | 0 => (some fuelErr, w)
  | fuel + 1 =>
    if !opts.iamRecursive then teeError (.fatal (ascii "received directory without -r flag")) w
    else
      match parseSubj line with
      | .error e => teeError (.fatal (errMsg e)) w
      | .ok (perm, _size, nm) =>
        let name := pjoin parent nm
        match prepareDir opts name perm w with
        | (.error e, w) => teeError e w
        | (.ok resetPerm, w) =>
          match sink fuel opts name true w with
          | (r, w) =>
            if isFatal r then (r, w)
            else
              let errs := match r with | some e => [e] | none => []
              let w := match times with | some t => fsUtimes name t w | none => w
              let w := if resetPerm then fsChmod name perm w else w
              let pendErrs : List GoErr := []
              match pendErrs with
              | [] => ((if errs.isEmpty then none else some (.acc errs)), w)
              | pe =>
                match sendError (.acc pe) w with
                | (some m, w) => (some (.fatal m), w)
                | (none, w) =>
                  let errs := errs ++ pe
                  ((if errs.isEmpty then none else some (.acc errs)), w)

end

/-- Embeds `sendAttr`: emit the `T` line (usec fields always `0`) and wait
for the ack. -/
def sendAttr (mt av : Int) (w : World) : Option GoErr × World :=
  match writeOut (ascii "T" ++ fmtInt mt ++ ascii " 0 " ++ fmtInt av ++ ascii " 0" ++ [10]) w with
  | (some m, w) => (some (.fatal m), w)
  | (none, w) => ack w

/-- Read-failure message of a file read. -/
def readIoMsg (nm : Str) : Str := ascii "read " ++ nm ++ ascii ": input/output error"

/-- Embeds `io.Copy(out, f)` for a regular file: the whole content flows to
the writer; a read capacity smaller than the content fails the copy with a
read error after that many sent bytes; a writer capacity smaller than the
readable flow fails it with a write error after capacity bytes. -/
def copyFileOut (nm : Str) (content : Str) (rcap : Option Nat) (w : World) :
    Nat × Option Str × World :=
  let rlim := match rcap with | none => content.length | some c => min c content.length
  match w.outCap with
  | some o =>
    if o < rlim then
      (o, some (ascii "write error"),
       { w with output := w.output ++ content.take o, outCap := some 0 })
    else
      (rlim, (if rlim < content.length then some (readIoMsg nm) else none),
       { w with output := w.output ++ content.take rlim, outCap := some (o - rlim) })
  | none =>
    (rlim, (if rlim < content.length then some (readIoMsg nm) else none),
     { w with output := w.output ++ content.take rlim })

/-- The regular-file tail of `send`: optional `T`, the `C` header, the ack,
the payload copy with zero-padding recovery on failure, the success trailer,
and the final ack. -/
def sendRegular (opts : Opts) (path : Str) (perm : Nat) (content : Str)
    (rcap : Option Nat) (mt av : Int) (w : World) : Option GoErr × World :=
  match (if opts.preserveAttrs then sendAttr mt av w else (none, w)) with
  | (some e, w) => (some e, w)
  | (none, w) =>
    match
      writeOut (ascii "C" ++ fmtOct4 (toPosixPerm perm) ++ 32 :: fmtNat content.length
        ++ 32 :: baseName path ++ [10]) w with
    | (some m, w) => (some (.fatal m), w)
    | (none, w) =>
      match ack w with
      | (some e, w) => (some e, w)
      | (none, w) =>
        match copyFileOut (baseName path) content rcap w with
        | (sent, some cm, w) =>
          match writeOut (List.replicate (content.length - sent) 0) w with
          | (some m, w) => (some (.fatal m), w)
          | (none, w) =>
            match ack w with
            | (some e, w) => (some e, w)
            | (none, w) => teeError (.soft cm) w
        | (_, none, w) =>
          match writeOut [0] w with
          | (some m, w) => (some (.fatal m), w)
          | (none, w) => ack w

mutual

/-- Embeds `send`: open and stat the path; directories go to `sendDir` under
`-r` and are soft errors otherwise; non-regular files are soft errors;
regular files go to `sendRegular`. -/
def send (fuel : Nat) (opts : Opts) (path : Str) (w : World) : Option GoErr × World :=
  match fuel with
  | 0 => (some fuelErr, w)
  | fuel + 1 =>
    match fsGet w.fs path with
    | none => teeError (.soft (ascii "open " ++ path ++ ascii ": no such file or directory")) w
    | some (.dir perm mt av) =>
      if opts.iamRecursive then sendDir fuel opts path perm mt av w
      else teeError (.soft (baseName path ++ ascii ": is a directory")) w
    | some (.special _) => teeError (.soft (baseName path ++ ascii ": not a regular file")) w
    | some (.file perm content _ rcap mt av) => sendRegular opts path perm content rcap mt av w

/-- Embeds `sendDir`: optional `T`, the `D` header plus ack, recursion into
the children (fatal aborts, soft accumulates), then `E` plus ack. -/
def sendDir (fuel : Nat) (opts : Opts) (path : Str) (perm : Nat) (mt av : Int)
    (w : World) : Option GoErr × World :=
  match fuel with
  | 0 => (some fuelErr, w)
  | fuel + 1 =>
    match (if opts.preserveAttrs then sendAttr mt av w else (none, w)) with
    | (some e, w) => (some e, w)
    | (none, w) =>
      match
        writeOut (ascii "D" ++ fmtOct4 (toPosixPerm perm) ++ ascii " 0 "
          ++ baseName path ++ [10]) w with
      | (some m, w) => (some (.fatal m), w)
      | (none, w) =>
        match ack w with
        | (some e, w) => (some e, w)
        | (none, w) =>
          match sendList fuel opts path (fsChildren w.fs path) [] w with
          | (some e, _, w) => (some e, w)
          | (none, errs, w) =>
            match writeOut (ascii "E" ++ [10]) w with
            | (some m, w) => (some (.fatal m), w)
            | (none, w) =>
              match ack w with
              | (ackErr, w) =>
                if isFatal ackErr then (ackErr, w)
                else if errs.isEmpty then (ackErr, w)
                else (some (.acc errs), w)

/-- The child loop of `sendDir`: a fatal `send` aborts with it, soft results
accumulate in order. -/
def sendList (fuel : Nat) (opts : Opts) (dir : Str) (names : List Str)
    (errs : List GoErr) (w : World) : Option GoErr × List GoErr × World :=
  match fuel with
  | 0 => (some fuelErr, errs, w)
  | fuel + 1 =>
    match names with
    | [] => (none, errs, w)
    | nm :: rest =>
      match send fuel opts (pjoin dir nm) w with
      | (r, w) =>
        if isFatal r then (r, errs, w)
        else
          sendList fuel opts dir rest
            (errs ++ (match r with | some e => [e] | none => [])) w

end

/-- The path loop of `source`: a fatal `send` aborts, soft results
accumulate. -/
def sourceList (fuel : Nat) (opts : Opts) (paths : List Str) (errs : List GoErr)
    (w : World) : Option GoErr × World :=
  match fuel with
  | 0 => (some fuelErr, w)
  | fuel + 1 =>
    match paths with
    | [] => ((if errs.isEmpty then none else some (.acc errs)), w)
    | p :: rest =>
      match send fuel opts p w with
      | (r, w) =>
        if isFatal r then (r, w)
        else sourceList fuel opts rest (errs ++ (match r with | some e => [e] | none => [])) w

/-- Embeds `source`: wait for the sink-ready ack, then send each path. -/
def source (fuel : Nat) (opts : Opts) (paths : List Str) (w : World) :
    Option GoErr × World :=
  match ack w with
  | (some e, w) => (some e, w)
  | (none, w) => sourceList fuel opts paths [] w

theorem permMaskFacts : (511 : Nat) &&& 4194304 = 0 ∧ (511 : Nat) &&& 8388608 = 0
    ∧ (8388608 : Nat) &&& 4194304 = 0 ∧ (8388608 : Nat) &&& 511 = 0
    ∧ (4194304 : Nat) &&& 8388608 = 0 ∧ (4194304 : Nat) &&& 511 = 0 := by decide

theorem toPosixPerm_low (x : Nat) : toPosixPerm (x &&& 511) = x &&& 511 := by
  simp [toPosixPerm, ModePerm, S_ISUID, S_ISGID, ModeSetuid, ModeSetgid,
    Nat.and_distrib_right, Nat.and_assoc, permMaskFacts.1, permMaskFacts.2.1,
    permMaskFacts.2.2.1, permMaskFacts.2.2.2.1, permMaskFacts.2.2.2.2.1,
    permMaskFacts.2.2.2.2.2]

theorem toPosixPerm_low_setuid (x : Nat) :
    toPosixPerm (x &&& 511 ||| 8388608) = (x &&& 511) ||| 2048 := by
  simp [toPosixPerm, ModePerm, S_ISUID, S_ISGID, ModeSetuid, ModeSetgid,
    Nat.and_distrib_right, Nat.and_assoc, permMaskFacts.1, permMaskFacts.2.1,
    permMaskFacts.2.2.1, permMaskFacts.2.2.2.1, permMaskFacts.2.2.2.2.1,
    permMaskFacts.2.2.2.2.2]

theorem toPosixPerm_low_setgid (x : Nat) :
    toPosixPerm (x &&& 511 ||| 4194304) = (x &&& 511) ||| 1024 := by
  simp [toPosixPerm, ModePerm, S_ISUID, S_ISGID, ModeSetuid, ModeSetgid,
    Nat.and_distrib_right, Nat.and_assoc, permMaskFacts.1, permMaskFacts.2.1,
    permMaskFacts.2.2.1, permMaskFacts.2.2.2.1, permMaskFacts.2.2.2.2.1,
    permMaskFacts.2.2.2.2.2]

theorem toPosixPerm_low_both (x : Nat) :
    toPosixPerm (x &&& 511 ||| 8388608 ||| 4194304) = (x &&& 511) ||| 2048 ||| 1024 := by
  simp [toPosixPerm, ModePerm, S_ISUID, S_ISGID, ModeSetuid, ModeSetgid,
    Nat.and_distrib_right, Nat.and_assoc, permMaskFacts.1, permMaskFacts.2.1,
    permMaskFacts.2.2.1, permMaskFacts.2.2.2.1, permMaskFacts.2.2.2.2.1,
    permMaskFacts.2.2.2.2.2]

theorem toStdPerm_toPosixPerm (x : Nat) (h : x &&& 3583 = x) :
    toPosixPerm (toStdPerm (x : Int)) = x := by
  have hx : x ≤ 3583 := h ▸ Nat.and_le_right
  have hu : ((x : Int) % (2 ^ 32 : Int)).toNat = x := by
    rw [Int.emod_eq_of_lt (by positivity) (by exact_mod_cast by omega : (x : Int) < 2 ^ 32)]
    exact Int.toNat_natCast x
  have h2048 : x &&& 2048 = 0 ∨ x &&& 2048 = 2048 := by
    have := Nat.and_two_pow x 11
    rcases Bool.eq_false_or_eq_true (x.testBit 11) with hb | hb <;>
      rw [hb] at this <;> norm_num at this <;> omega
  have h1024 : x &&& 1024 = 0 ∨ x &&& 1024 = 1024 := by
    have := Nat.and_two_pow x 10
    rcases Bool.eq_false_or_eq_true (x.testBit 10) with hb | hb <;>
      rw [hb] at this <;> norm_num at this <;> omega
  have hsplit : x = (x &&& 511) ||| (x &&& 2048) ||| (x &&& 1024) := by
    conv_lhs => rw [← h]
    rw [show (3583 : Nat) = 511 ||| 2048 ||| 1024 by decide,
      Nat.and_or_distrib_left, Nat.and_or_distrib_left]
  unfold toStdPerm
  simp only [hu, ModePerm, S_ISUID, S_ISGID, ModeSetuid, ModeSetgid]
  rcases h2048 with ha | ha <;> rcases h1024 with hb | hb <;>
    simp only [ha, hb] <;> norm_num <;>
    simp only [toPosixPerm_low, toPosixPerm_low_setuid, toPosixPerm_low_setgid,
      toPosixPerm_low_both] <;> conv_rhs => rw [hsplit, ha, hb]
  all_goals simp

theorem toPosixPerm_subset_mask (m : Nat) : toPosixPerm m &&& 3583 = toPosixPerm m := by
  have e1 : (511 : Nat) &&& 3583 = 511 := by decide
  have e2 : (2048 : Nat) &&& 3583 = 2048 := by decide
  have e3 : (1024 : Nat) &&& 3583 = 1024 := by decide
  unfold toPosixPerm
  by_cases h1 : m &&& ModeSetuid ≠ 0 <;> by_cases h2 : m &&& ModeSetgid ≠ 0 <;>
    simp [h1, h2, Nat.and_distrib_right, Nat.and_assoc, ModePerm, S_ISUID, S_ISGID, e1, e2, e3]

theorem toStdPerm_subset_mask (p : Int) : toStdPerm p &&& 12583423 = toStdPerm p := by
  have e1 : (511 : Nat) &&& 12583423 = 511 := by decide
  have e2 : (8388608 : Nat) &&& 12583423 = 8388608 := by decide
  have e3 : (4194304 : Nat) &&& 12583423 = 4194304 := by decide
  unfold toStdPerm
  generalize (p % (2 ^ 32 : Int)).toNat = u
  by_cases h1 : u &&& S_ISUID = 0 <;> by_cases h2 : u &&& S_ISGID = 0 <;>
    simp [h1, h2, Nat.and_distrib_right, Nat.and_assoc, ModePerm, ModeSetuid, ModeSetgid,
      e1, e2, e3]

/-- Claim C9: for every POSIX mode value composed only of the permitted bits
(the low 9 permission bits, 3583 = 0o6777 masking in setuid 0o4000 and setgid
0o2000), `toPosixPerm (toStdPerm x) = x`; moreover no bit outside the
permitted sets survives either direction: every `toPosixPerm` result lies
within the POSIX mask 0o6777 and every `toStdPerm` result lies within the
`os.FileMode` mask 12583423 (the low 9 bits plus the setuid/setgid mode
bits). -/
theorem claim_C9 :
    (∀ x : Nat, x &&& 3583 = x → toPosixPerm (toStdPerm (x : Int)) = x)
    ∧ (∀ m : Nat, toPosixPerm m &&& 3583 = toPosixPerm m)
    ∧ (∀ p : Int, toStdPerm p &&& 12583423 = toStdPerm p) :=
  ⟨toStdPerm_toPosixPerm, toPosixPerm_subset_mask, toStdPerm_subset_mask⟩

/-- Witness for C9 at the concrete mode 0o6755. -/
theorem claim_C9_witness : toPosixPerm (toStdPerm ((3565 : Nat) : Int)) = 3565 :=
  claim_C9.1 3565 (by decide)

theorem replaceNl_no_nl (s : Str) : 10 ∉ replaceNl s := by
  induction s with
  | nil => simp [replaceNl]
  | cons b t ih =>
    unfold replaceNl
    by_cases h : b = 10
    · simpa [h] using ih
    · simp [h, ih]
      omega

theorem maxErrLen3 : MaxErrLen - 3 = 1021 := rfl

theorem maxErrLen6 : MaxErrLen - 6 = 1018 := rfl

theorem sendErrorBody_short (msg : Str) (h : (replaceNl msg).length ≤ MaxErrLen - 3) :
    sendErrorBody msg = replaceNl msg := by
  unfold sendErrorBody
  simp [Nat.not_lt.2 h]

theorem sendErrorBody_long (msg : Str) (h : MaxErrLen - 3 < (replaceNl msg).length) :
    sendErrorBody msg = (replaceNl msg).take (MaxErrLen - 6) ++ ascii "..." := by
  unfold sendErrorBody
  simp [h]

theorem sendErrorBody_no_nl (msg : Str) : 10 ∉ sendErrorBody msg := by
  by_cases h : MaxErrLen - 3 < (replaceNl msg).length
  · rw [sendErrorBody_long msg h]
    intro hc
    rcases List.mem_append.1 hc with hc | hc
    · exact replaceNl_no_nl msg (List.mem_of_mem_take hc)
    · simp [ascii] at hc
  · rw [sendErrorBody_short msg (Nat.not_lt.1 h)]
    exact replaceNl_no_nl msg

theorem sendErrorBody_len (msg : Str) : (sendErrorBody msg).length ≤ MaxErrLen - 3 := by
  by_cases h : MaxErrLen - 3 < (replaceNl msg).length
  · rw [sendErrorBody_long msg h]
    simp only [maxErrLen3, maxErrLen6] at h ⊢
    rw [List.length_append, List.length_take]
    simp [ascii]
  · rw [sendErrorBody_short msg (Nat.not_lt.1 h)]
    exact Nat.not_lt.1 h

/-- Claim C8: for every message, `sendError` flattens newlines to `; ` and
emits `\x01` + body + `\n` whose framed length, a trailing `\x00` included,
fits in `MaxErrLen` = 1024 bytes; the body is the flattened message when that
fits, contains no newline, and when truncation was needed the emitted body
ends with `...`. -/
theorem claim_C8 (msg : Str) :
    (sendErrorLine msg).length + 1 ≤ MaxErrLen
    ∧ sendErrorLine msg = 1 :: (sendErrorBody msg ++ [10])
    ∧ 10 ∉ sendErrorBody msg
    ∧ ((replaceNl msg).length ≤ MaxErrLen - 3 → sendErrorBody msg = replaceNl msg)
    ∧ (MaxErrLen - 3 < (replaceNl msg).length →
        (sendErrorBody msg).drop ((sendErrorBody msg).length - 3) = ascii "...") := by
  refine ⟨?_, rfl, sendErrorBody_no_nl msg, sendErrorBody_short msg, ?_⟩
  · have hb := sendErrorBody_len msg
    rw [maxErrLen3] at hb
    simp only [sendErrorLine, List.length_cons, List.length_append, List.length_cons,
      List.length_nil, MaxErrLen]
    omega
  · intro h
    rw [sendErrorBody_long msg h]
    have hlen : ((replaceNl msg).take (MaxErrLen - 6)).length = MaxErrLen - 6 := by
      rw [List.length_take, maxErrLen6]
      rw [maxErrLen3] at h
      omega
    rw [List.length_append, hlen, maxErrLen6]
    rw [maxErrLen6] at hlen
    have h3 : 1018 + (ascii "...").length - 3 = 1018 := by simp [ascii]
    rw [h3]
    nth_rewrite 1 [← hlen]
    exact List.drop_left _ _

set_option maxRecDepth 10000 in
/-- Witness for C8 at a 1100-byte message that forces truncation. -/
theorem claim_C8_witness :
    (sendErrorLine (List.replicate 1100 97)).length + 1 ≤ MaxErrLen
    ∧ (sendErrorBody (List.replicate 1100 97)).drop
        ((sendErrorBody (List.replicate 1100 97)).length - 3) = ascii "..." :=
  ⟨(claim_C8 (List.replicate 1100 97)).1,
   (claim_C8 (List.replicate 1100 97)).2.2.2.2 (by decide)⟩

theorem splitLine_append (l r : Str) (e : StreamEnd) (h : 10 ∉ l) :
    splitLine (l ++ 10 :: r) e = .ok (l, r) := by
  induction l with
  | nil => simp [splitLine]
  | cons b t ih =>
    have hb : ¬b = 10 := fun hh => h (hh ▸ List.mem_cons_self b t)
    have ht : 10 ∉ t := fun hh => h (List.mem_cons_of_mem b hh)
    simp [splitLine, hb, ih ht]

/-- Claim C1, evaluated at the failing input.  The claim says an `E` frame at
a `recur = true` sink level emits one ack and then returns from that level.
The code as written does not return: part one shows the dispatch loop, after
acking `E`, continues with the **same** recursion level on the remaining
input; part two runs an inner sink on two consecutive `E` frames: both are
consumed and acked at the same level (output grows by two acks after the
ready byte) and the loop only ends at EOF — under the claim the second `E`
frame would have been left for the parent and the run would have stopped
after one ack. -/
theorem claim_C1 :
    (∀ (fuel : Nat) (opts : Opts) (path : Str) (first : Bool) (errs : List GoErr)
      (times : Option FileTimes) (fs : List (Str × FsNode)) (out : Str)
      (log : List Effect) (rest : Str) (e : StreamEnd),
      sinkLoop (fuel + 1) opts path true first errs times ⟨fs, ⟨69 :: 10 :: rest, e⟩, out, none, log⟩
        = sinkLoop fuel opts path true false errs times ⟨fs, ⟨rest, e⟩, out ++ [0], none, log⟩)
    ∧ sink 20 ⟨true, false, false⟩ (ascii "d") true ⟨[], ⟨ascii "E\nE\n", .eof⟩, [], none, []⟩
        = (none, ⟨[], ⟨[], .eof⟩, [0, 0, 0], none, []⟩) := by
  constructor
  · intro fuel opts path first errs times fs out log rest e
    simp [sinkLoop, readByte, readLine, splitLine, writeOut]
  · rfl

def c2world : World :=
  ⟨[], ⟨ascii "T5 6 7 8\n" ++ ascii "\x01oops\n" ++ ascii "C0644 1 x\n" ++ [65, 0], .eof⟩,
   [], none, []⟩

/-- Counterexample to claim C2 as stated: in a sink run receiving `T5 6 7 8`,
then a `\x01` soft-error frame, then `C0644 1 x`, the pending times are NOT
cleared by the intervening `\x01` frame — the received file is utimes'd with
exactly the `T` frame's values. -/
theorem claim_C2_counterexample :
    Effect.utimesE (ascii "f") ⟨5, 6, 7, 8⟩
      ∈ (sink 30 ⟨false, false, false⟩ (ascii "f") false c2world).2.log := by
  decide

def c2amWorld : World :=
  ⟨[], ⟨ascii "\x01oops\n" ++ ascii "C0644 1 x\n" ++ [65, 0], .eof⟩, [], none, []⟩

/-- Claim C2 as amended: a `\x01` soft-error frame between a `T` frame and
the next `Dir`/`File` frame does NOT clear the pending times — part one shows
one `\x01` dispatch step records the soft error and passes the pending times
through unchanged; part two shows the pending times are then applied to the
next `C` frame (the log utimes the file with exactly the pending value, for
every pending value). -/
theorem claim_C2 :
    (∀ (fuel : Nat) (opts : Opts) (path : Str) (recur first : Bool) (errs : List GoErr)
      (times : Option FileTimes) (w : World) (lineB rest : Str) (e : StreamEnd),
      10 ∉ lineB →
      sinkLoop (fuel + 1) opts path recur first errs times
          { w with input := ⟨1 :: (lineB ++ 10 :: rest), e⟩ }
        = sinkLoop fuel opts path recur false (errs ++ [.soft lineB]) times
            { w with input := ⟨rest, e⟩ })
    ∧ (∀ t : FileTimes,
      (sinkLoop 5 ⟨false, false, false⟩ (ascii "f") false false [] (some t) c2amWorld).2.log
        = [.openE (ascii "f") true, .truncE (ascii "f") 1, .syncE (ascii "f"),
           .chmodE (ascii "f") 420, .utimesE (ascii "f") t]) := by
  constructor
  · intro fuel opts path recur first errs times w lineB rest e h
    simp [sinkLoop, readByte, readLine, splitLine_append _ _ _ h]
  · intro t
    rfl

/-- Witness for C2's general part at a concrete `\x01` frame. -/
theorem claim_C2_witness :
    sinkLoop 1 ⟨false, false, false⟩ [] false false [] none
        { (⟨[], ⟨[], .eof⟩, [], none, []⟩ : World) with
          input := ⟨1 :: (ascii "oops" ++ 10 :: []), .eof⟩ }
      = sinkLoop 0 ⟨false, false, false⟩ [] false false [.soft (ascii "oops")] none
          { (⟨[], ⟨[], .eof⟩, [], none, []⟩ : World) with input := ⟨[], .eof⟩ } :=
  claim_C2.1 0 ⟨false, false, false⟩ [] false false [] none ⟨[], ⟨[], .eof⟩, [], none, []⟩
    (ascii "oops") [] .eof (by decide)

/-- Claim C10: a `\x02` frame makes the dispatch loop return a fatal error
carrying exactly that frame's message, whatever soft errors (`errs`), pending
times and flags were accumulated before — they do not appear in the result. -/
theorem claim_C10 (fuel : Nat) (opts : Opts) (path : Str) (recur first : Bool)
    (errs : List GoErr) (times : Option FileTimes) (w : World) (lineB rest : Str)
    (e : StreamEnd) (h : 10 ∉ lineB) :
    sinkLoop (fuel + 1) opts path recur first errs times
      { w with input := ⟨2 :: (lineB ++ 10 :: rest), e⟩ }
      = (some (.fatal lineB), { w with input := ⟨rest, e⟩ }) := by
  simp [sinkLoop, readByte, readLine, splitLine_append _ _ _ h]

/-- Witness for C10 with a nonempty accumulated soft-error list. -/
theorem claim_C10_witness :
    sinkLoop 3 ⟨false, false, false⟩ [] false false [.soft (ascii "earlier")] none
        { (⟨[], ⟨[], .eof⟩, [], none, []⟩ : World) with
          input := ⟨2 :: (ascii "boom" ++ 10 :: []), .eof⟩ }
      = (some (.fatal (ascii "boom")),
         { (⟨[], ⟨[], .eof⟩, [], none, []⟩ : World) with input := ⟨[], .eof⟩ }) :=
  claim_C10 2 ⟨false, false, false⟩ [] false false [.soft (ascii "earlier")] none
    ⟨[], ⟨[], .eof⟩, [], none, []⟩ (ascii "boom") [] .eof (by decide)

theorem teeError_fatal (m : Str) (w : World) :
    isFatal (teeError (.fatal m) w).1 = true
    ∧ (teeError (.fatal m) w).2.fs = w.fs
    ∧ (teeError (.fatal m) w).2.log = w.log := by
  unfold teeError sendError writeOut
  cases h : w.outCap with
  | none => simp [isFatal]
  | some c =>
    by_cases hc : (sendErrorLine (errMsg (GoErr.fatal m))).length ≤ c <;> simp [hc, isFatal]

theorem parseSubj_invalid (line : Str) (pperm size : Int) (nm : Str)
    (hscan : scanSubj line = some (pperm, size, nm))
    (hbad : nm = ascii ".." ∨ nm.contains 47 = true) :
    parseSubj line = .error (.fatal (nm ++ ascii ": invalid name")) := by
  unfold parseSubj
  rw [hscan]
  rcases hbad with hb | hb <;> simp [hb]
  intro _
  simpa using hb

/-- Claim C5: every `C` or `D` header line whose scanned name is `..` or
contains `/` makes `sinkFile` (resp. `sinkDir`) return a fatal error with the
filesystem and the effect log untouched — nothing is opened, created or made
for that frame (only a `\x01` line goes out to the peer). -/
theorem claim_C5 :
    (∀ (opts : Opts) (dst line : Str) (times : Option FileTimes) (w : World)
      (pperm size : Int) (nm : Str),
      scanSubj line = some (pperm, size, nm) →
      (nm = ascii ".." ∨ nm.contains 47 = true) →
      isFatal (sinkFile opts dst line times w).1 = true
      ∧ (sinkFile opts dst line times w).2.fs = w.fs
      ∧ (sinkFile opts dst line times w).2.log = w.log)
    ∧ (∀ (fuel : Nat) (opts : Opts) (parent line : Str) (times : Option FileTimes)
      (w : World) (pperm size : Int) (nm : Str),
      scanSubj line = some (pperm, size, nm) →
      (nm = ascii ".." ∨ nm.contains 47 = true) →
      isFatal (sinkDir fuel opts parent line times w).1 = true
      ∧ (sinkDir fuel opts parent line times w).2.fs = w.fs
      ∧ (sinkDir fuel opts parent line times w).2.log = w.log) := by
  constructor
  · intro opts dst line times w pperm size nm hscan hbad
    unfold sinkFile
    rw [parseSubj_invalid line pperm size nm hscan hbad]
    exact teeError_fatal _ w
  · intro fuel opts parent line times w pperm size nm hscan hbad
    cases fuel with
    | zero => simp [sinkDir, isFatal, fuelErr]
    | succ fuel =>
      unfold sinkDir
      by_cases hr : opts.iamRecursive
      · rw [parseSubj_invalid line pperm size nm hscan hbad]
        simp [hr]
        exact teeError_fatal _ w
      · simp [hr]
        exact teeError_fatal _ w

/-- Witness for C5 at the concrete header line `0644 3 ..`. -/
theorem claim_C5_witness :
    isFatal (sinkFile ⟨false, false, false⟩ (ascii "d") (ascii "0644 3 ..") none
      ⟨[], ⟨[], .eof⟩, [], none, []⟩).1 = true
    ∧ (sinkFile ⟨false, false, false⟩ (ascii "d") (ascii "0644 3 ..") none
        ⟨[], ⟨[], .eof⟩, [], none, []⟩).2.fs = ([] : List (Str × FsNode))
    ∧ (sinkFile ⟨false, false, false⟩ (ascii "d") (ascii "0644 3 ..") none
        ⟨[], ⟨[], .eof⟩, [], none, []⟩).2.log = ([] : List Effect) :=
  claim_C5.1 ⟨false, false, false⟩ (ascii "d") (ascii "0644 3 ..") none
    ⟨[], ⟨[], .eof⟩, [], none, []⟩ 420 3 (ascii "..") (by decide) (Or.inl rfl)

theorem sinkFile_existing (opts : Opts) (dst line subj : Str) (perm p0 : Nat)
    (old pl rest out0 : Str) (mt av : Int) (e : StreamEnd) (log0 : List Effect)
    (hp : parseSubj line = .ok (perm, (pl.length : Int), subj)) :
    sinkFile opts dst line none
      ⟨[(dst, .file p0 old none none mt av)], ⟨pl ++ 0 :: rest, e⟩, out0, none, log0⟩
    = (none,
       ⟨[(dst, .file (if opts.preserveAttrs then perm else p0) pl none none mt av)],
        ⟨rest, e⟩, out0 ++ [0] ++ [0], none,
        log0 ++ [.openE dst false, .truncE dst (pl.length : Int), .syncE dst]
          ++ (if opts.preserveAttrs then [.chmodE dst perm] else [])⟩) := by
  have hmin : min pl.length (pl ++ 0 :: rest).length = pl.length := by
    simp
  have htake : (pl ++ 0 :: rest).take pl.length = pl := List.take_left pl (0 :: rest)
  have hdrop : (pl ++ 0 :: rest).drop pl.length = 0 :: rest := List.drop_left pl (0 :: rest)
  have hnn : ¬((pl.length : Int) < 0) := Int.not_lt.2 (Int.natCast_nonneg _)
  have hover : overwrite old ((pl ++ 0 :: rest).take pl.length) = pl ++ old.drop pl.length := by
    rw [htake, overwrite]
  have htrunc : truncTo pl.length (pl ++ old.drop pl.length) = pl := by
    unfold truncTo
    rw [List.take_left]
    have : pl.length - (pl ++ old.drop pl.length).length = 0 := by
      simp
    rw [this]
    simp
  by_cases hpa : opts.preserveAttrs <;>
    simp [sinkFile, hp, openWronlyCreate, writeOut, copyInToFile, copyInFin, sinkFileFin,
      fsTruncate, fsSync, fsChmod, Rscp.ack, readByte, fsGet, fsSet, isDirNode, isRegNode,
      isFatal, overwrite, hmin, hdrop, hnn, htrunc, hpa]

theorem sinkFile_created (opts : Opts) (dst line subj : Str) (perm : Nat)
    (pl rest out0 : Str) (e : StreamEnd) (log0 : List Effect)
    (hp : parseSubj line = .ok (perm, (pl.length : Int), subj)) :
    sinkFile opts dst line none ⟨[], ⟨pl ++ 0 :: rest, e⟩, out0, none, log0⟩
    = (none,
       ⟨[(dst, .file perm pl none none 0 0)], ⟨rest, e⟩, out0 ++ [0] ++ [0], none,
        log0 ++ [.openE dst true, .truncE dst (pl.length : Int), .syncE dst,
          .chmodE dst perm]⟩) := by
  have hmin : min pl.length (pl ++ 0 :: rest).length = pl.length := by simp
  have hdrop : (pl ++ 0 :: rest).drop pl.length = 0 :: rest := List.drop_left pl (0 :: rest)
  have hnn : ¬((pl.length : Int) < 0) := Int.not_lt.2 (Int.natCast_nonneg _)
  have htake : (pl ++ 0 :: rest).take pl.length = pl := List.take_left pl (0 :: rest)
  have htrunc : truncTo pl.length pl = pl := by
    unfold truncTo
    simp
  simp [sinkFile, hp, openWronlyCreate, writeOut, copyInToFile, copyInFin, sinkFileFin,
    fsTruncate, fsSync, fsChmod, Rscp.ack, readByte, fsGet, fsSet, isDirNode, isRegNode,
    isFatal, overwrite, hmin, hdrop, hnn, htake, htrunc]

/-- Claim C6: sinking a `C` frame of declared size N (the payload `pl`)
into a pre-existing regular file of arbitrary content `old` (covering every
M > N), or into a freshly created file, leaves the destination holding
exactly the N payload bytes: the copy overwrites the prefix and the truncate
cuts the remainder. -/
theorem claim_C6 :
    (∀ (opts : Opts) (dst line subj : Str) (perm p0 : Nat) (old pl rest out0 : Str)
      (mt av : Int) (e : StreamEnd) (log0 : List Effect),
      parseSubj line = .ok (perm, (pl.length : Int), subj) →
      fsGet (sinkFile opts dst line none
          ⟨[(dst, .file p0 old none none mt av)], ⟨pl ++ 0 :: rest, e⟩, out0, none, log0⟩).2.fs dst
        = some (.file (if opts.preserveAttrs then perm else p0) pl none none mt av))
    ∧ (∀ (opts : Opts) (dst line subj : Str) (perm : Nat) (pl rest out0 : Str)
      (e : StreamEnd) (log0 : List Effect),
      parseSubj line = .ok (perm, (pl.length : Int), subj) →
      fsGet (sinkFile opts dst line none
          ⟨[], ⟨pl ++ 0 :: rest, e⟩, out0, none, log0⟩).2.fs dst
        = some (.file perm pl none none 0 0)) := by
  constructor
  · intro opts dst line subj perm p0 old pl rest out0 mt av e log0 hp
    rw [sinkFile_existing opts dst line subj perm p0 old pl rest out0 mt av e log0 hp]
    simp [fsGet]
  · intro opts dst line subj perm pl rest out0 e log0 hp
    rw [sinkFile_created opts dst line subj perm pl rest out0 e log0 hp]
    simp [fsGet]

/-- Witness for C6: a 5-byte pre-existing file receives a 2-byte payload and
ends up holding exactly those 2 bytes. -/
theorem claim_C6_witness :
    fsGet (sinkFile ⟨false, false, false⟩ (ascii "f") (ascii "0644 2 x") none
        ⟨[(ascii "f", .file 256 (ascii "ABCDE") none none 9 9)],
         ⟨ascii "hi" ++ 0 :: [], .eof⟩, [], none, []⟩).2.fs (ascii "f")
      = some (.file 256 (ascii "hi") none none 9 9) :=
  claim_C6.1 ⟨false, false, false⟩ (ascii "f") (ascii "0644 2 x") (ascii "x") 420 256
    (ascii "ABCDE") (ascii "hi") [] [] 9 9 .eof [] (by rfl)

theorem sinkFile_under_dir (opts : Opts) (dst line subj : Str) (perm dp : Nat)
    (pl rest out0 : Str) (mt av : Int) (e : StreamEnd) (log0 : List Effect)
    (hp : parseSubj line = .ok (perm, (pl.length : Int), subj)) :
    sinkFile opts dst line none
      ⟨[(dst, .dir dp mt av)], ⟨pl ++ 0 :: rest, e⟩, out0, none, log0⟩
    = (none,
       ⟨[(dst, .dir dp mt av),
         (pjoin dst subj,
          .file (if opts.preserveAttrs then perm else perm ||| S_IWUSR) pl none none 0 0)],
        ⟨rest, e⟩, out0 ++ [0] ++ [0], none,
        log0 ++ [.openE (pjoin dst subj) true, .truncE (pjoin dst subj) (pl.length : Int),
          .syncE (pjoin dst subj)]
          ++ (if opts.preserveAttrs then [.chmodE (pjoin dst subj) perm] else [])⟩) := by
  have hne : ¬dst = pjoin dst subj := by
    unfold pjoin
    simp
  have hmin : min pl.length (pl ++ 0 :: rest).length = pl.length := by simp
  have hdrop : (pl ++ 0 :: rest).drop pl.length = 0 :: rest := List.drop_left pl (0 :: rest)
  have hnn : ¬((pl.length : Int) < 0) := Int.not_lt.2 (Int.natCast_nonneg _)
  have htake : (pl ++ 0 :: rest).take pl.length = pl := List.take_left pl (0 :: rest)
  have htrunc : truncTo pl.length pl = pl := by
    unfold truncTo
    simp
  by_cases hpa : opts.preserveAttrs <;>
    simp [sinkFile, hp, openWronlyCreate, writeOut, copyInToFile, copyInFin, sinkFileFin,
      fsTruncate, fsSync, fsChmod, Rscp.ack, readByte, fsGet, fsSet, isDirNode, isRegNode,
      isFatal, overwrite, hmin, hdrop, hnn, htake, htrunc, hne, hpa]

/-- Counterexample to claim C7 as stated: a `C` frame declaring mode 0444
into a pre-existing *directory* destination creates the inner file `d/x` (the
open effect records `created = true`), yet without `-p` the log contains no
chmod and the file keeps its creation mode 0644 (`perm | 0200`) instead of
the declared 0444 — the code's condition tests existence of the destination
path, not of the file this transfer created. -/
theorem claim_C7_counterexample :
    (sinkFile ⟨false, false, false⟩ (ascii "d") (ascii "0444 1 x") none
        ⟨[(ascii "d", .dir 448 0 0)], ⟨65 :: 0 :: [], .eof⟩, [], none, []⟩).2.log
      = [.openE (ascii "d/x") true, .truncE (ascii "d/x") 1, .syncE (ascii "d/x")]
    ∧ fsGet (sinkFile ⟨false, false, false⟩ (ascii "d") (ascii "0444 1 x") none
        ⟨[(ascii "d", .dir 448 0 0)], ⟨65 :: 0 :: [], .eof⟩, [], none, []⟩).2.fs
        (ascii "d/x")
      = some (.file 420 [65] none none 0 0) := by
  constructor <;> rfl

/-- Claim C7 as amended: `sinkFile` chmods the received file to the declared
bits exactly when `-p` is set or the stat of the **destination path** found
nothing.  On a pre-existing regular destination the chmod happens iff
`preserveAttrs` and without it the old bits `p0` survive; on an absent
destination the created file is always chmodded to the declared bits; but on
a pre-existing *directory* destination the newly created inner file is
chmodded only under `-p` and otherwise keeps its creation mode
`perm | 0200`. -/
theorem claim_C7 :
    (∀ (opts : Opts) (dst line subj : Str) (perm p0 : Nat) (old pl rest out0 : Str)
      (mt av : Int) (e : StreamEnd),
      parseSubj line = .ok (perm, (pl.length : Int), subj) →
      (sinkFile opts dst line none
          ⟨[(dst, .file p0 old none none mt av)], ⟨pl ++ 0 :: rest, e⟩, out0, none, []⟩).2.log
        = [.openE dst false, .truncE dst (pl.length : Int), .syncE dst]
          ++ (if opts.preserveAttrs then [.chmodE dst perm] else [])
      ∧ fsGet (sinkFile opts dst line none
          ⟨[(dst, .file p0 old none none mt av)], ⟨pl ++ 0 :: rest, e⟩, out0, none, []⟩).2.fs dst
        = some (.file (if opts.preserveAttrs then perm else p0) pl none none mt av))
    ∧ (∀ (opts : Opts) (dst line subj : Str) (perm : Nat) (pl rest out0 : Str)
      (e : StreamEnd),
      parseSubj line = .ok (perm, (pl.length : Int), subj) →
      (sinkFile opts dst line none ⟨[], ⟨pl ++ 0 :: rest, e⟩, out0, none, []⟩).2.log
        = [.openE dst true, .truncE dst (pl.length : Int), .syncE dst, .chmodE dst perm]
      ∧ fsGet (sinkFile opts dst line none
          ⟨[], ⟨pl ++ 0 :: rest, e⟩, out0, none, []⟩).2.fs dst
        = some (.file perm pl none none 0 0))
    ∧ (∀ (opts : Opts) (dst line subj : Str) (perm dp : Nat) (pl rest out0 : Str)
      (mt av : Int) (e : StreamEnd),
      parseSubj line = .ok (perm, (pl.length : Int), subj) →
      (sinkFile opts dst line none
          ⟨[(dst, .dir dp mt av)], ⟨pl ++ 0 :: rest, e⟩, out0, none, []⟩).2.log
        = [.openE (pjoin dst subj) true, .truncE (pjoin dst subj) (pl.length : Int),
           .syncE (pjoin dst subj)]
          ++ (if opts.preserveAttrs then [.chmodE (pjoin dst subj) perm] else [])
      ∧ fsGet (sinkFile opts dst line none
          ⟨[(dst, .dir dp mt av)], ⟨pl ++ 0 :: rest, e⟩, out0, none, []⟩).2.fs
          (pjoin dst subj)
        = some (.file (if opts.preserveAttrs then perm else perm ||| S_IWUSR) pl
            none none 0 0)) := by
  refine ⟨?_, ?_, ?_⟩
  · intro opts dst line subj perm p0 old pl rest out0 mt av e hp
    rw [sinkFile_existing opts dst line subj perm p0 old pl rest out0 mt av e [] hp]
    simp [fsGet]
  · intro opts dst line subj perm pl rest out0 e hp
    rw [sinkFile_created opts dst line subj perm pl rest out0 e [] hp]
    simp [fsGet]
  · intro opts dst line subj perm dp pl rest out0 mt av e hp
    have hne : ¬dst = pjoin dst subj := by
      unfold pjoin
      simp
    rw [sinkFile_under_dir opts dst line subj perm dp pl rest out0 mt av e [] hp]
    simp [fsGet, hne]

/-- Witness for C7: without `-p`, a pre-existing regular destination sees
open/truncate/sync but no chmod and keeps its old bits, and a file created
under a pre-existing directory destination is not chmodded either. -/
theorem claim_C7_witness :
    ((sinkFile ⟨false, false, false⟩ (ascii "f") (ascii "0640 2 x") none
        ⟨[(ascii "f", .file 256 (ascii "ABCDE") none none 9 9)],
         ⟨ascii "hi" ++ 0 :: [], .eof⟩, [], none, []⟩).2.log
      = [.openE (ascii "f") false, .truncE (ascii "f") 2, .syncE (ascii "f")]
    ∧ fsGet (sinkFile ⟨false, false, false⟩ (ascii "f") (ascii "0640 2 x") none
        ⟨[(ascii "f", .file 256 (ascii "ABCDE") none none 9 9)],
         ⟨ascii "hi" ++ 0 :: [], .eof⟩, [], none, []⟩).2.fs (ascii "f")
      = some (.file 256 (ascii "hi") none none 9 9))
    ∧ fsGet (sinkFile ⟨false, false, false⟩ (ascii "e") (ascii "0444 2 y") none
        ⟨[(ascii "e", .dir 448 4 4)], ⟨ascii "hi" ++ 0 :: [], .eof⟩, [], none, []⟩).2.fs
        (pjoin (ascii "e") (ascii "y"))
      = some (.file (292 ||| S_IWUSR) (ascii "hi") none none 0 0) :=
  ⟨claim_C7.1 ⟨false, false, false⟩ (ascii "f") (ascii "0640 2 x") (ascii "x") 416 256
    (ascii "ABCDE") (ascii "hi") [] [] 9 9 .eof (by rfl),
   (claim_C7.2.2 ⟨false, false, false⟩ (ascii "e") (ascii "0444 2 y") (ascii "y") 292 448
     (ascii "hi") [] [] 4 4 .eof (by rfl)).2⟩

/-- Claim C3: when the payload copy of a `C` frame declaring `n` bytes fails
after `wr` bytes (part one: a write failure at capacity `c = wr < n`, with
the stream still holding the payload), `sinkFile` drains exactly `n - wr`
further bytes - the copy consumed `c + 1` bytes (the failed write's read),
the drain consumes `n - c`, and with the ack byte the stream is left exactly
at `rest` - and surfaces the failure as a soft (non-fatal) pending error.
Part two: when the drain itself fails (here a read error ends the stream
before the declared size), `sinkFile` returns a fatal error carrying it. -/
theorem claim_C3 :
    (∀ (opts : Opts) (dst line subj : Str) (perm p0 : Nat) (old bytes rest out0 : Str)
      (mt av : Int) (e : StreamEnd) (log0 : List Effect) (n c : Nat),
      parseSubj line = .ok (perm, (n : Int), subj) →
      c < n → bytes.drop (n + 1) = 0 :: rest →
      (sinkFile opts dst line none
          ⟨[(dst, .file p0 old (some c) none mt av)], ⟨bytes, e⟩, out0, none, log0⟩).1
        = some (.acc [.soft (noSpaceMsg dst)])
      ∧ isFatal (sinkFile opts dst line none
          ⟨[(dst, .file p0 old (some c) none mt av)], ⟨bytes, e⟩, out0, none, log0⟩).1
        = false
      ∧ (sinkFile opts dst line none
          ⟨[(dst, .file p0 old (some c) none mt av)], ⟨bytes, e⟩, out0, none, log0⟩).2.input.bytes
        = rest)
    ∧ (∀ (opts : Opts) (dst line subj : Str) (perm p0 : Nat) (old data out0 : Str)
      (mt av : Int) (m : Str) (log0 : List Effect) (n : Nat),
      parseSubj line = .ok (perm, (n : Int), subj) →
      data.length < n →
      (sinkFile opts dst line none
          ⟨[(dst, .file p0 old none none mt av)], ⟨data, .ioErr m⟩, out0, none, log0⟩).1
        = some (.fatal m)) := by
  constructor
  · intro opts dst line subj perm p0 old bytes rest out0 mt av e log0 n c hp hc hdr
    have hb1 : bytes.length - (n + 1) = rest.length + 1 := by
      rw [← List.length_drop, hdr]
      simp
    have hblen : bytes.length = n + 2 + rest.length := by omega
    have hmin : min n bytes.length = n := by omega
    have hcap : c < min n bytes.length := by omega
    have hsub : ((n : Int) - (c : Int)).toNat = n - c := by omega
    have hdl : (bytes.drop (c + 1)).length = n + 1 + rest.length - c := by
      simp [hblen]
      omega
    have hmin2 : min (n - c) (bytes.drop (c + 1)).length = n - c := by omega
    have hdd : (bytes.drop (c + 1)).drop (n - c) = 0 :: rest := by
      rw [List.drop_drop]
      have h9 : c + 1 + (n - c) = n + 1 := by omega
      rw [h9, hdr]
    have hctake : (bytes.take c).length = c := by
      rw [List.length_take]
      omega
    have hcond : n ≤ List.length bytes - (c + 1) + c := by omega
    have hidx : c + 1 + (n - c) ⊓ (List.length bytes - (c + 1)) = n + 1 := by omega
    by_cases hpa : opts.preserveAttrs <;>
      simp [sinkFile, hp, openWronlyCreate, writeOut, copyInToFile, copyInFin, drainIn,
        sinkFileFin, fsTruncate, fsSync, fsChmod, sendError, Rscp.ack, readByte, fsGet, fsSet,
        isDirNode, isRegNode, isFatal, overwrite, hmin, hc, hcap, hsub, hmin2, hdd, hctake,
        hcond, hidx, hdr, hpa, Int.not_lt.2 (Int.natCast_nonneg n)]
  · intro opts dst line subj perm p0 old data out0 mt av m log0 n hp hlt
    have hmin : min n data.length = data.length := by omega
    have hne : ¬data.length = n := by omega
    have hsub : ((n : Int) - (data.length : Int)).toNat = n - data.length := by omega
    have hdl : (data.drop data.length).length = 0 := by simp
    have hmin2 : min (n - data.length) (data.drop data.length).length = 0 := by
      simp
    have hne2 : ¬(0 = n - data.length) := by omega
    simp [sinkFile, hp, openWronlyCreate, writeOut, copyInToFile, copyInFin, drainIn,
      endErrOpt, teeError, sendError, fsGet, fsSet, isDirNode, isRegNode, isFatal,
      overwrite, hmin, hne, hsub, hmin2, hne2]

/-- Witness for C3: a disk-full failure after 1 of 4 declared bytes drains
the remaining 3 and reports soft; a read error during the copy is fatal. -/
theorem claim_C3_witness :
    (sinkFile ⟨false, false, false⟩ (ascii "f") (ascii "0644 4 x") none
        ⟨[(ascii "f", .file 420 (ascii "zzzzzz") (some 1) none 3 3)],
         ⟨ascii "abcde" ++ [0], .eof⟩, [], none, []⟩).1
      = some (.acc [.soft (noSpaceMsg (ascii "f"))])
    ∧ (sinkFile ⟨false, false, false⟩ (ascii "f") (ascii "0644 4 x") none
        ⟨[(ascii "f", .file 420 (ascii "zzzzzz") (some 1) none 3 3)],
         ⟨ascii "abcde" ++ [0], .eof⟩, [], none, []⟩).2.input.bytes = []
    ∧ (sinkFile ⟨false, false, false⟩ (ascii "f") (ascii "0644 4 x") none
        ⟨[(ascii "f", .file 420 (ascii "zz") none none 3 3)],
         ⟨ascii "ab", .ioErr (ascii "broken")⟩, [], none, []⟩).1
      = some (.fatal (ascii "broken")) :=
  ⟨(claim_C3.1 ⟨false, false, false⟩ (ascii "f") (ascii "0644 4 x") (ascii "x") 420 420
      (ascii "zzzzzz") (ascii "abcde" ++ [0]) [] [] 3 3 .eof [] 4 1 (by rfl) (by decide)
      (by rfl)).1,
   (claim_C3.1 ⟨false, false, false⟩ (ascii "f") (ascii "0644 4 x") (ascii "x") 420 420
      (ascii "zzzzzz") (ascii "abcde" ++ [0]) [] [] 3 3 .eof [] 4 1 (by rfl) (by decide)
      (by rfl)).2.2,
   claim_C3.2 ⟨false, false, false⟩ (ascii "f") (ascii "0644 4 x") (ascii "x") 420 420
      (ascii "zz") (ascii "ab") [] 3 3 (ascii "broken") [] 4 (by rfl) (by decide)⟩

/-- Claim C4: when the payload copy of `send` fails after `sent` of the
declared `size` bytes, `send` pads the stream with exactly `size - sent` zero
bytes, reads one acknowledgement, and returns the copy failure as a soft
(non-fatal) error (part one: a file read error at offset `k = sent`; the
output ends with the C header, the `k` sent bytes, `size - k` zeros and the
teed error line, and both acks are consumed).  Part two: a failure while
writing the zero padding (writer capacity exhausted during the copy) is
returned as a fatal error. -/
theorem claim_C4 :
    (∀ (fuel : Nat) (opts : Opts) (path : Str) (perm : Nat) (content irest out0 : Str)
      (mt av : Int) (e : StreamEnd) (fs2 : List (Str × FsNode)) (log0 : List Effect) (k : Nat),
      opts.preserveAttrs = false →
      fsGet ((path, FsNode.file perm content none (some k) mt av) :: fs2) path
        = some (.file perm content none (some k) mt av) →
      k < content.length →
      (send (fuel + 1) opts path
          ⟨(path, .file perm content none (some k) mt av) :: fs2,
           ⟨0 :: 0 :: irest, e⟩, out0, none, log0⟩).1
        = some (.soft (readIoMsg (baseName path)))
      ∧ isFatal (send (fuel + 1) opts path
          ⟨(path, .file perm content none (some k) mt av) :: fs2,
           ⟨0 :: 0 :: irest, e⟩, out0, none, log0⟩).1 = false
      ∧ (send (fuel + 1) opts path
          ⟨(path, .file perm content none (some k) mt av) :: fs2,
           ⟨0 :: 0 :: irest, e⟩, out0, none, log0⟩).2.output
        = out0 ++ (ascii "C" ++ fmtOct4 (toPosixPerm perm) ++ 32 :: fmtNat content.length
            ++ 32 :: baseName path ++ [10])
          ++ content.take k ++ List.replicate (content.length - k) 0
          ++ sendErrorLine (readIoMsg (baseName path))
      ∧ (send (fuel + 1) opts path
          ⟨(path, .file perm content none (some k) mt av) :: fs2,
           ⟨0 :: 0 :: irest, e⟩, out0, none, log0⟩).2.input.bytes = irest)
    ∧ (∀ (fuel : Nat) (opts : Opts) (path : Str) (perm : Nat) (content irest out0 : Str)
      (mt av : Int) (e : StreamEnd) (fs2 : List (Str × FsNode)) (log0 : List Effect) (j : Nat),
      opts.preserveAttrs = false →
      fsGet ((path, FsNode.file perm content none none mt av) :: fs2) path
        = some (.file perm content none none mt av) →
      j < content.length →
      (send (fuel + 1) opts path
          ⟨(path, .file perm content none none mt av) :: fs2, ⟨0 :: irest, e⟩, out0,
           some ((ascii "C" ++ fmtOct4 (toPosixPerm perm) ++ 32 :: fmtNat content.length
             ++ 32 :: baseName path ++ [10]).length + j), log0⟩).1
        = some (.fatal (ascii "write error"))) := by
  constructor
  · intro fuel opts path perm content irest out0 mt av e fs2 log0 k hpa hfs hk
    have hmin : min k content.length = k := by omega
    have hlt : k < content.length := hk
    simp [send, hpa, hfs, sendRegular, writeOut, copyFileOut, Rscp.ack, readByte,
      teeError, sendError, errMsg, isFatal, hmin, Nat.not_le.2 hk, hk]
  · intro fuel opts path perm content irest out0 mt av e fs2 log0 j hpa hfs hj
    have hle : (ascii "C" ++ fmtOct4 (toPosixPerm perm) ++ 32 :: fmtNat content.length
        ++ 32 :: baseName path ++ [10]).length
        ≤ (ascii "C" ++ fmtOct4 (toPosixPerm perm) ++ 32 :: fmtNat content.length
        ++ 32 :: baseName path ++ [10]).length + j := Nat.le_add_right _ _
    have hcap : (ascii "C" ++ fmtOct4 (toPosixPerm perm) ++ 32 :: fmtNat content.length
        ++ 32 :: baseName path ++ [10]).length + j
        - (ascii "C" ++ fmtOct4 (toPosixPerm perm) ++ 32 :: fmtNat content.length
        ++ 32 :: baseName path ++ [10]).length = j := by omega
    have hrepl : ¬(List.replicate (content.length - j) (0 : Nat)).length ≤ 0 := by
      rw [List.length_replicate]
      omega
    have hrepl2 : ¬(content.length - j = 0) := by omega
    simp [send, hpa, hfs, sendRegular, writeOut, copyFileOut, Rscp.ack, readByte,
      teeError, sendError, isFatal, hle, hcap, hrepl, hrepl2, hj]

/-- Witness for C4: a read failure after 1 of 4 bytes pads 3 zeros and is
soft; a writer that dies mid-payload makes the padding write fatal. -/
theorem claim_C4_witness :
    (send 1 ⟨false, false, false⟩ (ascii "f")
        ⟨[(ascii "f", .file 420 (ascii "abcd") none (some 1) 0 0)],
         ⟨0 :: 0 :: [], .eof⟩, [], none, []⟩).1
      = some (.soft (readIoMsg (ascii "f")))
    ∧ (send 1 ⟨false, false, false⟩ (ascii "f")
        ⟨[(ascii "f", .file 420 (ascii "abcd") none (some 1) 0 0)],
         ⟨0 :: 0 :: [], .eof⟩, [], none, []⟩).2.input.bytes = []
    ∧ (send 1 ⟨false, false, false⟩ (ascii "f")
        ⟨[(ascii "f", .file 420 (ascii "abcd") none none 0 0)], ⟨0 :: [], .eof⟩, [],
         some ((ascii "C" ++ fmtOct4 (toPosixPerm 420) ++ 32 :: fmtNat (ascii "abcd").length
           ++ 32 :: baseName (ascii "f") ++ [10]).length + 2), []⟩).1
      = some (.fatal (ascii "write error")) :=
  ⟨(claim_C4.1 0 ⟨false, false, false⟩ (ascii "f") 420 (ascii "abcd") [] [] 0 0 .eof [] [] 1
      rfl (by rfl) (by decide)).1,
   (claim_C4.1 0 ⟨false, false, false⟩ (ascii "f") 420 (ascii "abcd") [] [] 0 0 .eof [] [] 1
      rfl (by rfl) (by decide)).2.2.2,
   claim_C4.2 0 ⟨false, false, false⟩ (ascii "f") 420 (ascii "abcd") [] [] 0 0 .eof [] [] 2
      rfl (by rfl) (by decide)⟩

end Rscp
